import Mathlib

/-!
Verification of the voice-activity segmentation and subtitle pipeline of
WhisperX_ffmpeg_2_Subtitle.py.

The embedding models the pure computational core of the script:
character-level string processing mirrors the Python `str` operations
(`in`, `split`, `strip`, `float()`), times are exact rationals, and the
Python integer conversions `int()` and `round()` are modelled by explicit
truncation and half-even rounding on rationals.  External process output
(the ffmpeg silencedetect log and the ffprobe duration) and the external
recognition engine's aligned result are inputs to the embedded functions.
-/

/-! ## Python string primitives on lists of characters -/

/-- Python `str.strip()`: remove whitespace from both ends. -/
def pystrip (l : List Char) : List Char :=
  ((l.dropWhile Char.isWhitespace).reverse.dropWhile Char.isWhitespace).reverse

/-- First occurrence of `sep` inside `s`: returns the part before the
occurrence and the part after it. -/
def strFind? (sep : List Char) : List Char → Option (List Char × List Char)
  | [] => if sep.isEmpty then some ([], []) else none
  | c :: rest =>
    if sep.isPrefixOf (c :: rest) then some ([], (c :: rest).drop sep.length)
    else
      match strFind? sep rest with
      | some (pre, post) => some (c :: pre, post)
      | none => none

/-- Python `sep in s` (substring containment). -/
def hasSub (sep s : List Char) : Bool := (strFind? sep s).isSome

/-- Fuel-driven worker for `pysplitAll`. -/
def pysplitAux (sep : List Char) : Nat → List Char → List (List Char)
  | 0, s => [s]
  | fuel + 1, s =>
    match strFind? sep s with
    | none => [s]
    | some (pre, post) => pre :: pysplitAux sep fuel post

/-- Python `s.split(sep)` for a non-empty separator: split at every
non-overlapping occurrence, left to right. -/
def pysplitAll (sep s : List Char) : List (List Char) :=
  pysplitAux sep (s.length + 1) s

/-! ## Python `float()` on a string, as an exact rational -/

/-- Numeric value of one decimal digit character. -/
def digitVal (c : Char) : ℕ := c.toNat - '0'.toNat

/-- Value of a digit string, most significant digit first. -/
def digitsVal (l : List Char) : ℕ := l.foldl (fun a c => a * 10 + digitVal c) 0

/-- Strip one optional sign; `true` means negative. -/
def splitSign : List Char → Bool × List Char
  | '-' :: r => (true, r)
  | '+' :: r => (false, r)
  | r => (false, r)

/-- Split a character list at the first exponent marker `e`/`E`. -/
def splitExp : List Char → List Char × Option (List Char)
  | [] => ([], none)
  | c :: r =>
    if c == 'e' || c == 'E' then ([], some r)
    else
      let (m, ex) := splitExp r
      (c :: m, ex)

/-- Unsigned decimal literal: `digits`, `digits.digits`, `digits.` or
`.digits`.  Anything else is rejected. -/
def parseUDec? (s : List Char) : Option ℚ :=
  let ip := s.takeWhile Char.isDigit
  let r := s.dropWhile Char.isDigit
  match r with
  | [] => if ip.isEmpty then none else some (digitsVal ip : ℚ)
  | '.' :: fr =>
    let fp := fr.takeWhile Char.isDigit
    let r2 := fr.dropWhile Char.isDigit
    if !r2.isEmpty then none
    else if ip.isEmpty && fp.isEmpty then none
    else some ((digitsVal ip : ℚ) + (digitsVal fp : ℚ) / (10 : ℚ) ^ fp.length)
  | _ => none

/-- Python `float(s)` on an already-stripped string, modelled as an exact
rational: optional sign, decimal mantissa, optional `e`/`E` exponent.
The non-finite spellings (`inf`, `nan`) are outside the model and fail. -/
def parseFloat? (s : List Char) : Option ℚ :=
  let (neg, body) := splitSign s
  let (mant, ex?) := splitExp body
  match parseUDec? mant with
  | none => none
  | some m =>
    let sm := if neg then -m else m
    match ex? with
    | none => some sm
    | some e =>
      let (eneg, ed) := splitSign e
      if ed.isEmpty || !ed.all Char.isDigit then none
      else
        let n := digitsVal ed
        some (if eneg then sm / (10 : ℚ) ^ n else sm * (10 : ℚ) ^ n)

/-! ## Python numeric conversions on rationals -/

/-- Python `a % b` for a positive modulus `b`: the representative of
`a` modulo `b` lying in `[0, b)`. -/
def pymod (a b : ℚ) : ℚ := a - b * ⌊a / b⌋

/-- Python `int(x)`: truncation toward zero. -/
def pytrunc (q : ℚ) : ℤ := if 0 ≤ q then ⌊q⌋ else ⌈q⌉

/-- Python `round(x)` (banker's rounding): nearest integer, ties to the
even neighbour. -/
def pyround (q : ℚ) : ℤ :=
  let f := ⌊q⌋
  let r := q - (f : ℚ)
  if r < 1 / 2 then f
  else if 1 / 2 < r then f + 1
  else if f % 2 = 0 then f else f + 1

/-- Python `f"{n:0wd}"`: zero-pad the decimal rendering of `n` to a
minimum total width `w`, the padding inserted after the sign. -/
def zpad (w : ℕ) (n : ℤ) : String :=
  let ds := toString n.natAbs
  let sign := if n < 0 then "-" else ""
  sign ++ String.mk (List.replicate (w - sign.length - ds.length) '0') ++ ds

/-! ## Time formatting (`format_time_srt`, `format_time_vtt`) -/

/-- Embeds `format_time_srt`: `HH:MM:SS,mmm` with the fields computed by
floor division, Python modulo, truncation and half-even rounding of the
fractional part to milliseconds, exactly as in the source. -/
def format_time_srt (seconds : ℚ) : String :=
  let hours : ℤ := ⌊seconds / 3600⌋
  let minutes : ℤ := ⌊pymod seconds 3600 / 60⌋
  let secs : ℤ := pytrunc (pymod seconds 60)
  let ms : ℤ := pyround ((seconds - (pytrunc seconds : ℚ)) * 1000)
  zpad 2 hours ++ ":" ++ zpad 2 minutes ++ ":" ++ zpad 2 secs ++ "," ++ zpad 3 ms

/-- Embeds `format_time_vtt`: as `format_time_srt` with `.` before the
milliseconds field. -/
def format_time_vtt (seconds : ℚ) : String :=
  let hours : ℤ := ⌊seconds / 3600⌋
  let minutes : ℤ := ⌊pymod seconds 3600 / 60⌋
  let secs : ℤ := pytrunc (pymod seconds 60)
  let ms : ℤ := pyround ((seconds - (pytrunc seconds : ℚ)) * 1000)
  zpad 2 hours ++ ":" ++ zpad 2 minutes ++ ":" ++ zpad 2 secs ++ "." ++ zpad 3 ms

/-- The shape `HH:MM:SS,mmm` demanded of SRT timestamps: exactly twelve
characters, two digits for hours, minutes and seconds, three digits for
milliseconds, with `:` `:` `,` separators. -/
def srtShape (s : String) : Bool :=
  match s.toList with
  | [h1, h2, c1, m1, m2, c2, s1, s2, c3, d1, d2, d3] =>
    h1.isDigit && h2.isDigit && (c1 == ':') && m1.isDigit && m2.isDigit &&
      (c2 == ':') && s1.isDigit && s2.isDigit && (c3 == ',') &&
      d1.isDigit && d2.isDigit && d3.isDigit
  | _ => false

/-- The shape `HH:MM:SS.mmm` demanded of VTT timestamps. -/
def vttShape (s : String) : Bool :=
  match s.toList with
  | [h1, h2, c1, m1, m2, c2, s1, s2, c3, d1, d2, d3] =>
    h1.isDigit && h2.isDigit && (c1 == ':') && m1.isDigit && m2.isDigit &&
      (c2 == ':') && s1.isDigit && s2.isDigit && (c3 == '.') &&
      d1.isDigit && d2.isDigit && d3.isDigit
  | _ => false

/-! ## Voice segment extraction (`extract_voice_segments`) -/

/-- One voice segment, `{"start": int(ms), "end": int(ms)}`. -/
structure Seg where
  start_ms : ℤ
  end_ms : ℤ
deriving DecidableEq, Repr

/-- The loop state of `extract_voice_segments`: the list built so far,
`voice_cursor` (seconds) and the `in_initial_silence` flag. -/
structure VoiceState where
  segments : List Seg
  voice_cursor : ℚ
  in_initial_silence : Bool
deriving DecidableEq, Repr

/-- The marker `"silence_start:"` searched for in each detector line. -/
def startMarker : List Char := "silence_start:".toList

/-- The marker `"silence_end:"` searched for in each detector line. -/
def endMarker : List Char := "silence_end:".toList

/-- `line.split("silence_start:")[1].strip()`. -/
def startField (line : List Char) : List Char :=
  pystrip ((pysplitAll startMarker line).getD 1 [])

/-- `line.split("silence_end:")[1].split("|")[0].strip()`. -/
def endField (line : List Char) : List Char :=
  pystrip ((pysplitAll ['|'] ((pysplitAll endMarker line).getD 1 [])).getD 0 [])

/-- One iteration of the line loop of `extract_voice_segments`.  A line
carrying `silence_start:` closes the current voice run (from
`voice_cursor`, or from 0 while still in the initial silence) and emits
it when longer than `int(min_duration * 1000)` ms; a line carrying
`silence_end:` moves `voice_cursor`.  A line matching neither marker, or
whose timestamp field fails to parse as a float, leaves the state
unchanged (the Python code catches `IndexError`/`ValueError` and
continues). -/
def processLine (min_duration : ℚ) (st : VoiceState) (line : List Char) :
    VoiceState :=
  if hasSub startMarker line then
    match parseFloat? (startField line) with
    | none => st
    | some silence_start_sec =>
      if !st.in_initial_silence then
        let v_start_ms := pytrunc (st.voice_cursor * 1000)
        let v_end_ms := pytrunc (silence_start_sec * 1000)
        if pytrunc (min_duration * 1000) < v_end_ms - v_start_ms then
          { st with segments := st.segments ++ [⟨v_start_ms, v_end_ms⟩] }
        else st
      else
        let v_start_ms : ℤ := 0
        let v_end_ms := pytrunc (silence_start_sec * 1000)
        let st1 :=
          if pytrunc (min_duration * 1000) < v_end_ms - v_start_ms then
            { st with segments := st.segments ++ [⟨v_start_ms, v_end_ms⟩] }
          else st
        { st1 with in_initial_silence := false }
  else if hasSub endMarker line then
    match parseFloat? (endField line) with
    | none => st
    | some silence_end_sec =>
      { st with voice_cursor := silence_end_sec, in_initial_silence := false }
  else st

/-- The state before the line loop: no segments, cursor 0.0, still in the
initial silence. -/
def initialVoiceState : VoiceState := ⟨[], 0, true⟩

/-- Embeds `extract_voice_segments`, with the two external process
outputs as inputs: `detector_output` is the ffmpeg silencedetect stderr
text, `probe_stdout` the ffprobe duration stdout.  After folding the
line loop over `detector_output.split("\n")`, the trailing voice run up
to the probed total duration is emitted when the duration parses and the
run exceeds the minimum duration; an unparseable duration skips that
step (`except ValueError: pass`). -/
def extract_voice_segments (detector_output probe_stdout : String)
    (min_duration : ℚ) : List Seg :=
  let lines := pysplitAll ['\n'] detector_output.toList
  let st := lines.foldl (processLine min_duration) initialVoiceState
  match parseFloat? (pystrip probe_stdout.toList) with
  | none => st.segments
  | some total_seconds =>
    let total_ms := pytrunc (total_seconds * 1000)
    let v_start_ms := pytrunc (st.voice_cursor * 1000)
    if pytrunc (min_duration * 1000) < total_ms - v_start_ms then
      st.segments ++ [⟨v_start_ms, total_ms⟩]
    else st.segments

/-! ## Facts about the time formatters (claims C1, C5) -/

/-- Claim C1 (code_bug evidence): at `t = 0.9996` the fractional part
rounds to 1000 milliseconds, and the code does NOT carry the overflow
into the seconds field: both formatters render a four-digit `1000`
milliseconds field instead of incrementing the seconds.  The sanity
conjuncts reproduce the repository's own unit-test values. -/
theorem format_time_no_carry_at_09996 :
    format_time_srt 0.9996 = "00:00:00,1000" ∧
    format_time_vtt 0.9996 = "00:00:00.1000" ∧
    format_time_srt 1.5 = "00:00:01,500" ∧
    format_time_srt 3661.123 = "01:01:01,123" := by
  refine ⟨?_, ?_, ?_, ?_⟩ <;> with_unfolding_all decide

/-- Claim C5 (code_bug evidence): the claimed shape
`^\d\d:\d\d:\d\d,\d\d\d$` is violated at `t = 0.9996`, where the
milliseconds field is the four-digit `1000`; the VTT shape fails at the
same input.  The sanity conjuncts show the shape checker accepts
correctly shaped outputs. -/
theorem srt_shape_violated_at_09996 :
    srtShape (format_time_srt 0.9996) = false ∧
    vttShape (format_time_vtt 0.9996) = false ∧
    srtShape (format_time_srt 3661.123) = true ∧
    vttShape (format_time_vtt 3661.123) = true := by
  refine ⟨?_, ?_, ?_, ?_⟩ <;> with_unfolding_all decide

/-! ## Shape of one `processLine` step -/

/-- One line-loop step either leaves the segment list unchanged or
appends exactly one segment that passes the minimum-duration guard. -/
lemma processLine_segments_cases (m : ℚ) (st : VoiceState) (line : List Char) :
    (processLine m st line).segments = st.segments ∨
    ∃ a b : ℤ, pytrunc (m * 1000) < b - a ∧
      (processLine m st line).segments = st.segments ++ [⟨a, b⟩] := by
  simp only [processLine]
  split
  · split
    · left; rfl
    · split
      · split
        · right; exact ⟨_, _, by assumption, rfl⟩
        · left; rfl
      · split
        · right; exact ⟨_, _, by assumption, rfl⟩
        · left; rfl
  · split
    · split
      · left; rfl
      · left; rfl
    · left; rfl

/-- The minimum-duration bound is preserved by the whole line loop. -/
lemma foldl_processLine_invariant (m : ℚ) (lines : List (List Char))
    (st : VoiceState)
    (h : ∀ sg ∈ st.segments, pytrunc (m * 1000) < sg.end_ms - sg.start_ms) :
    ∀ sg ∈ (lines.foldl (processLine m) st).segments,
      pytrunc (m * 1000) < sg.end_ms - sg.start_ms := by
  induction lines generalizing st with
  | nil => exact h
  | cons l ls ih =>
    refine ih (processLine m st l) ?_
    intro sg hsg
    rcases processLine_segments_cases m st l with hc | ⟨a, b, hab, hc⟩
    · exact h sg (hc ▸ hsg)
    · rw [hc] at hsg
      rcases List.mem_append.1 hsg with hsg | hsg
      · exact h sg hsg
      · rcases List.mem_singleton.1 hsg with rfl
        exact hab

/-- Every segment returned by `extract_voice_segments` passes the
minimum-duration guard `int(min_duration * 1000) < end - start`. -/
lemma extract_voice_segments_guard (det probe : String) (m : ℚ) (sg : Seg)
    (hsg : sg ∈ extract_voice_segments det probe m) :
    pytrunc (m * 1000) < sg.end_ms - sg.start_ms := by
  have hbase := foldl_processLine_invariant m (pysplitAll ['\n'] det.toList)
    initialVoiceState (by intro x hx; simp [initialVoiceState] at hx)
  unfold extract_voice_segments at hsg
  split at hsg
  · exact hbase sg hsg
  · dsimp only at hsg
    split at hsg
    · rcases List.mem_append.1 hsg with hsg | hsg
      · exact hbase sg hsg
      · rcases List.mem_singleton.1 hsg with rfl
        assumption
    · exact hbase sg hsg

/-! ## Concrete runs of `extract_voice_segments` -/

/-- Worked run for the leading-silence example: START@1.0, END@3.0,
total 10.0 s, minimum 0.5 s. -/
lemma extract_eval_leading_silence :
    extract_voice_segments
        "silence_start: 1.0\nsilence_end: 3.0 | silence_duration: 2.0"
        "10.0" (1/2) = [⟨0, 1000⟩, ⟨3000, 10000⟩] := by
  simp +decide [extract_voice_segments, processLine, initialVoiceState, pysplitAll,
    pysplitAux, strFind?, hasSub, startMarker, endMarker, startField, endField,
    pystrip, parseFloat?, parseUDec?, splitSign, splitExp, digitsVal, digitVal, pymod]
  norm_num [pytrunc]

/-- Worked run for a duplicated START marker: START@1.0 then START@2.0
with no intervening END, unparseable probe output, minimum 0.5 s. -/
lemma extract_eval_repeated_start :
    extract_voice_segments "silence_start: 1.0\nsilence_start: 2.0" "" (1/2)
      = [⟨0, 1000⟩, ⟨0, 2000⟩] := by
  simp +decide [extract_voice_segments, processLine, initialVoiceState, pysplitAll,
    pysplitAux, strFind?, hasSub, startMarker, endMarker, startField, endField,
    pystrip, parseFloat?, parseUDec?, splitSign, splitExp, digitsVal, digitVal, pymod]
  norm_num [pytrunc]

/-- Worked run for a log ending in an unmatched START: END@1.0 then
START@5.0, total 10.0 s, minimum 0.5 s.  The START at 5.0 closes the run
1.0–5.0, and the trailing step re-emits from the unchanged cursor 1.0 to
the total duration, overlapping the previous segment. -/
lemma extract_eval_unmatched_start :
    extract_voice_segments "silence_end: 1.0\nsilence_start: 5.0" "10.0" (1/2)
      = [⟨1000, 5000⟩, ⟨1000, 10000⟩] := by
  simp +decide [extract_voice_segments, processLine, initialVoiceState, pysplitAll,
    pysplitAux, strFind?, hasSub, startMarker, endMarker, startField, endField,
    pystrip, parseFloat?, parseUDec?, splitSign, splitExp, digitsVal, digitVal, pymod]
  norm_num [pytrunc]

/-- Worked run for the empty detector log with a 5.0 s probed duration. -/
lemma extract_eval_empty_log :
    extract_voice_segments "" "5.0" (1/2) = [⟨0, 5000⟩] := by
  simp +decide [extract_voice_segments, processLine, initialVoiceState, pysplitAll,
    pysplitAux, strFind?, hasSub, startMarker, endMarker, startField, endField,
    pystrip, parseFloat?, parseUDec?, splitSign, splitExp, digitsVal, digitVal, pymod]
  norm_num [pytrunc]

/-! ## Claims C2, C3, C4, C7, C9 -/

/-- Claim C2 (counterexample): for the log END@1.0, START@5.0 with total
10.0 s and minimum 0.5 s the two returned segments overlap (the second
starts at 1000 ms, before the first ends at 5000 ms), refuting the
claimed ascending pairwise non-overlapping order for logs that end with
an unmatched silence_start. -/
theorem extract_segments_overlap_counterexample :
    extract_voice_segments "silence_end: 1.0\nsilence_start: 5.0" "10.0" (1/2)
      = [⟨1000, 5000⟩, ⟨1000, 10000⟩] ∧
    ¬ List.Pairwise (fun a b : Seg => a.end_ms ≤ b.start_ms)
        (extract_voice_segments "silence_end: 1.0\nsilence_start: 5.0" "10.0" (1/2)) := by
  refine ⟨extract_eval_unmatched_start, ?_⟩
  rw [extract_eval_unmatched_start]
  decide

/-- Claim C2 (amended): for every detector log, probe output and
nonnegative minimum duration, every returned segment has
`end_ms > start_ms` and a duration strictly greater than the minimum
duration in milliseconds (both against the code's integer guard
`int(min_duration * 1000)` and against the exact value
`min_duration * 1000`).  The ascending non-overlap part of the original
claim is dropped: it fails on repeated or unmatched silence_start
events. -/
theorem extract_segments_min_duration (det probe : String) (m : ℚ) (hm : 0 ≤ m)
    (sg : Seg) (hsg : sg ∈ extract_voice_segments det probe m) :
    sg.start_ms < sg.end_ms ∧
    pytrunc (m * 1000) < sg.end_ms - sg.start_ms ∧
    (m * 1000 : ℚ) < ((sg.end_ms - sg.start_ms : ℤ) : ℚ) := by
  have hg := extract_voice_segments_guard det probe m sg hsg
  have h1000 : (0 : ℚ) ≤ m * 1000 := by positivity
  have hnn : (0 : ℤ) ≤ pytrunc (m * 1000) := by
    simp only [pytrunc, if_pos h1000]
    exact Int.floor_nonneg.2 h1000
  refine ⟨by linarith, hg, ?_⟩
  have hfl : (m * 1000 : ℚ) < (pytrunc (m * 1000) : ℚ) + 1 := by
    simp only [pytrunc, if_pos h1000]
    exact Int.lt_floor_add_one _
  have hle : pytrunc (m * 1000) + 1 ≤ sg.end_ms - sg.start_ms := by omega
  calc (m * 1000 : ℚ) < (pytrunc (m * 1000) : ℚ) + 1 := hfl
    _ = ((pytrunc (m * 1000) + 1 : ℤ) : ℚ) := by push_cast; ring
    _ ≤ ((sg.end_ms - sg.start_ms : ℤ) : ℚ) := by exact_mod_cast hle

/-- Witness for `extract_segments_min_duration` at the concrete run of
the empty log with a 5.0 s duration and minimum 0.5 s. -/
theorem extract_segments_min_duration_witness :
    (0 : ℚ) ≤ 1/2 ∧
    (⟨0, 5000⟩ : Seg) ∈ extract_voice_segments "" "5.0" (1/2) ∧
    ((⟨0, 5000⟩ : Seg).start_ms < (⟨0, 5000⟩ : Seg).end_ms ∧
      pytrunc ((1/2 : ℚ) * 1000) <
        (⟨0, 5000⟩ : Seg).end_ms - (⟨0, 5000⟩ : Seg).start_ms ∧
      ((1/2 : ℚ) * 1000) <
        (((⟨0, 5000⟩ : Seg).end_ms - (⟨0, 5000⟩ : Seg).start_ms : ℤ) : ℚ)) := by
  have hmem : (⟨0, 5000⟩ : Seg) ∈ extract_voice_segments "" "5.0" (1/2) := by
    rw [extract_eval_empty_log]; exact List.mem_singleton.2 rfl
  exact ⟨by norm_num, hmem,
    extract_segments_min_duration "" "5.0" (1/2) (by norm_num) _ hmem⟩

/-- Claim C3 (counterexample): on exactly START@1.0, END@3.0 with total
10.0 s and minimum 0.5 s the code does not return the single segment
{3000, 10000}: it also emits the head segment {0, 1000} covering the
audio before the first detected silence. -/
theorem extract_leading_silence_counterexample :
    extract_voice_segments
        "silence_start: 1.0\nsilence_end: 3.0 | silence_duration: 2.0"
        "10.0" (1/2) ≠ [⟨3000, 10000⟩] := by
  rw [extract_eval_leading_silence]; decide

/-- Claim C3 (amended): on exactly START@1.0, END@3.0 with total 10.0 s
and minimum 0.5 s the code returns exactly the two segments {0, 1000}
and {3000, 10000}: the span before the silence that starts at 1.0 s is
emitted as voice (the source's FIX-2 behaviour), followed by the
trailing run from the silence end. -/
theorem extract_leading_silence_segments :
    extract_voice_segments
        "silence_start: 1.0\nsilence_end: 3.0 | silence_duration: 2.0"
        "10.0" (1/2) = [⟨0, 1000⟩, ⟨3000, 10000⟩] :=
  extract_eval_leading_silence

/-- Claim C4 (counterexample): a second silence_start processed before
any intervening silence_end does change the emitted segment list — on
the state reached after START@1.0 the line `silence_start: 2.0` appends
the overlapping segment {0, 2000}, and the full run over the duplicated
log returns both segments. -/
theorem repeated_start_counterexample :
    (processLine (1/2) ⟨[⟨0, 1000⟩], 0, false⟩
        "silence_start: 2.0".toList).segments ≠ [⟨0, 1000⟩] ∧
    extract_voice_segments "silence_start: 1.0\nsilence_start: 2.0" "" (1/2)
      = [⟨0, 1000⟩, ⟨0, 2000⟩] := by
  refine ⟨?_, extract_eval_repeated_start⟩
  have hstep : processLine (1/2) ⟨[⟨0, 1000⟩], 0, false⟩
      "silence_start: 2.0".toList
      = ⟨[⟨0, 1000⟩, ⟨0, 2000⟩], 0, false⟩ := by
    simp +decide [processLine, pysplitAll, pysplitAux, strFind?, hasSub,
      startMarker, endMarker, startField, endField, pystrip, parseFloat?,
      parseUDec?, splitSign, splitExp, digitsVal, digitVal]
    norm_num [pytrunc]
  rw [hstep]
  decide

/-- Claim C4 (amended): a silence_start at time `t` processed while not
in the initial silence (in particular a repeated START) is not ignored:
it emits one more interval, from the unchanged cursor to `t`, whenever
that span exceeds the minimum duration, and leaves the cursor and flag
unchanged; duplicate START markers are therefore not idempotent. -/
theorem repeated_start_emits_interval (m : ℚ) (st : VoiceState)
    (line : List Char) (t : ℚ)
    (h0 : st.in_initial_silence = false)
    (h1 : hasSub startMarker line = true)
    (h2 : parseFloat? (startField line) = some t) :
    processLine m st line =
      if pytrunc (m * 1000) <
          pytrunc (t * 1000) - pytrunc (st.voice_cursor * 1000) then
        { st with segments := st.segments ++
            [⟨pytrunc (st.voice_cursor * 1000), pytrunc (t * 1000)⟩] }
      else st := by
  simp [processLine, h0, h1, h2]

/-- Witness for `repeated_start_emits_interval` on the concrete state
after START@1.0 and the line `silence_start: 2.0`. -/
theorem repeated_start_emits_interval_witness :
    (⟨[⟨0, 1000⟩], 0, false⟩ : VoiceState).in_initial_silence = false ∧
    hasSub startMarker "silence_start: 2.0".toList = true ∧
    parseFloat? (startField "silence_start: 2.0".toList) = some 2 ∧
    processLine (1/2) ⟨[⟨0, 1000⟩], 0, false⟩ "silence_start: 2.0".toList =
      ⟨[⟨0, 1000⟩, ⟨0, 2000⟩], 0, false⟩ := by
  have h2 : parseFloat? (startField "silence_start: 2.0".toList) = some 2 := by
    simp +decide [startField, pysplitAll, pysplitAux, strFind?, startMarker,
      pystrip, parseFloat?, parseUDec?, splitSign, splitExp, digitsVal, digitVal]
  refine ⟨rfl, by decide, h2, ?_⟩
  rw [repeated_start_emits_interval (1/2) _ _ 2 rfl (by decide) h2]
  norm_num [pytrunc]

/-- Claim C7: on an empty silence-event log, a probed duration of 5.0 s
(5000 ms) and minimum 0.5 s, the code returns exactly the one segment
{0, 5000}, and the line loop alone contributes no segment — the result
comes from the final trailing-run step. -/
theorem extract_empty_log_single_segment :
    extract_voice_segments "" "5.0" (1/2) = [⟨0, 5000⟩] ∧
    ((pysplitAll ['\n'] "".toList).foldl (processLine (1/2))
        initialVoiceState).segments = [] := by
  refine ⟨extract_eval_empty_log, ?_⟩
  decide

/-- Claim C9: a detector line that carries neither marker, or whose
timestamp field fails to parse as a float, leaves the loop state exactly
unchanged, and the fold over the remaining lines simply continues — such
lines can never abort `extract_voice_segments` (which is a total
function of the log text). -/
theorem malformed_line_skipped (m : ℚ) (st : VoiceState) (line : List Char)
    (rest : List (List Char))
    (h : (hasSub startMarker line = false ∧ hasSub endMarker line = false)
       ∨ (hasSub startMarker line = true ∧ parseFloat? (startField line) = none)
       ∨ (hasSub startMarker line = false ∧ hasSub endMarker line = true
            ∧ parseFloat? (endField line) = none)) :
    processLine m st line = st ∧
    (line :: rest).foldl (processLine m) st = rest.foldl (processLine m) st := by
  have hst : processLine m st line = st := by
    rcases h with ⟨h1, h2⟩ | ⟨h1, hp⟩ | ⟨h1, h2, hp⟩
    · simp [processLine, h1, h2]
    · simp [processLine, h1, hp]
    · simp [processLine, h1, h2, hp]
  exact ⟨hst, by rw [List.foldl_cons, hst]⟩

/-- Witness for `malformed_line_skipped` on the line
`silence_start: oops`, whose timestamp field is not a float. -/
theorem malformed_line_skipped_witness :
    (hasSub startMarker "silence_start: oops".toList = true ∧
      parseFloat? (startField "silence_start: oops".toList) = none) ∧
    processLine 1 initialVoiceState "silence_start: oops".toList
      = initialVoiceState ∧
    ["silence_start: oops".toList].foldl (processLine 1) initialVoiceState
      = [].foldl (processLine 1) initialVoiceState := by
  have h : hasSub startMarker "silence_start: oops".toList = true ∧
      parseFloat? (startField "silence_start: oops".toList) = none := by
    constructor <;> decide
  exact ⟨h, malformed_line_skipped 1 initialVoiceState _ [] (Or.inr (Or.inl h))⟩


/-! ## WhisperX alignment normalization (`transcribe_with_whisperx`) -/

/-- One aligned character or word item from the engine: the dict's
optional `start`/`end` timing keys and its text value (`char.get("char",
"")` respectively `word.get("word", "")`, with the dict default already
applied). -/
structure AlignedItem where
  start? : Option ℚ
  end? : Option ℚ
  text : String
deriving DecidableEq, Repr

/-- One recognized span (`word_seg`) of the engine's aligned result:
`word_seg.get("chars", None)` and `word_seg.get("words", [])` modelled
as optional lists. -/
structure AlignedSpan where
  chars? : Option (List AlignedItem)
  words? : Option (List AlignedItem)
deriving DecidableEq, Repr

/-- One subtitle dict appended to `all_subtitles`. -/
structure SubEntry where
  id : ℕ
  start_sec : ℚ
  end_sec : ℚ
  start_srt : String
  end_srt : String
  start_vtt : String
  end_vtt : String
  text : String
deriving DecidableEq, Repr

/-- One iteration of the character loop: rebase the item's timing by the
segment start (missing keys default to 0 local offset), skip the item if
its text strips to empty, otherwise append one subtitle whose id is the
current output length plus one and whose text is the raw character. -/
def processChar (start_sec : ℚ) (acc : List SubEntry) (c : AlignedItem) :
    List SubEntry :=
  let char_start := start_sec + c.start?.getD 0
  let char_end := start_sec + c.end?.getD 0
  let char_text := c.text
  if (pystrip char_text.toList).isEmpty then acc
  else acc ++ [{ id := acc.length + 1, start_sec := char_start, end_sec := char_end,
                 start_srt := format_time_srt char_start,
                 end_srt := format_time_srt char_end,
                 start_vtt := format_time_vtt char_start,
                 end_vtt := format_time_vtt char_end,
                 text := char_text }]

/-- One iteration of the word fallback loop: as `processChar` but the
appended text is the stripped word. -/
def processWord (start_sec : ℚ) (acc : List SubEntry) (w : AlignedItem) :
    List SubEntry :=
  let w_start := start_sec + w.start?.getD 0
  let w_end := start_sec + w.end?.getD 0
  let w_text := String.mk (pystrip w.text.toList)
  if w_text.toList.isEmpty then acc
  else acc ++ [{ id := acc.length + 1, start_sec := w_start, end_sec := w_end,
                 start_srt := format_time_srt w_start,
                 end_srt := format_time_srt w_end,
                 start_vtt := format_time_vtt w_start,
                 end_vtt := format_time_vtt w_end,
                 text := w_text }]

/-- One recognized span: the char loop runs when `word_seg.get("chars",
None)` is truthy (present and non-empty), otherwise the word loop runs
over `word_seg.get("words", [])`. -/
def processSpan (start_sec : ℚ) (acc : List SubEntry) (sp : AlignedSpan) :
    List SubEntry :=
  match sp.chars? with
  | some (c :: cs) => (c :: cs).foldl (processChar start_sec) acc
  | _ => (sp.words?.getD []).foldl (processWord start_sec) acc

/-- Embeds the subtitle-building loop of `transcribe_with_whisperx`.
The external engine call is an input: each voice segment comes paired
with the aligned spans the engine returned for it (a segment whose
slicing or recognition failed contributes the empty list).  For each
segment `start_sec = start_ms / 1000`, and all spans feed one shared
accumulator whose length determines the next id. -/
def transcribe_with_whisperx (aligned : List (Seg × List AlignedSpan)) :
    List SubEntry :=
  aligned.foldl
    (fun acc p => p.2.foldl (processSpan ((p.1.start_ms : ℚ) / 1000)) acc) []

/-! ## The adapter contract the spec states, and the refinement proof -/

/-- Payload of one timed unit before numbering: global start, global
end, text. -/
def specCharUnit (start_sec : ℚ) (c : AlignedItem) : Option (ℚ × ℚ × String) :=
  if (pystrip c.text.toList).isEmpty then none
  else some (start_sec + c.start?.getD 0, start_sec + c.end?.getD 0, c.text)

/-- Word counterpart of `specCharUnit`: the text is stripped before the
emptiness test and is emitted stripped. -/
def specWordUnit (start_sec : ℚ) (w : AlignedItem) : Option (ℚ × ℚ × String) :=
  let t := String.mk (pystrip w.text.toList)
  if t.toList.isEmpty then none
  else some (start_sec + w.start?.getD 0, start_sec + w.end?.getD 0, t)

/-- The units one span contributes, per the spec's contract: one unit
per character when the span's character list is present and non-empty,
otherwise one unit per word; units whose text trims to empty are
discarded; every unit's global timestamps are the segment start plus the
unit's local offset (a missing offset counting as 0). -/
def specSpanUnits (start_sec : ℚ) (sp : AlignedSpan) : List (ℚ × ℚ × String) :=
  match sp.chars? with
  | some (c :: cs) => (c :: cs).filterMap (specCharUnit start_sec)
  | _ => (sp.words?.getD []).filterMap (specWordUnit start_sec)

/-- Render one payload as the subtitle dict with the given id. -/
def subOfUnit (n : ℕ) (u : ℚ × ℚ × String) : SubEntry :=
  { id := n, start_sec := u.1, end_sec := u.2.1,
    start_srt := format_time_srt u.1, end_srt := format_time_srt u.2.1,
    start_vtt := format_time_vtt u.1, end_vtt := format_time_vtt u.2.1,
    text := u.2.2 }

/-- Number a payload list sequentially starting at `n`. -/
def numberUnitsFrom (n : ℕ) : List (ℚ × ℚ × String) → List SubEntry
  | [] => []
  | u :: us => subOfUnit n u :: numberUnitsFrom (n + 1) us

/-- The adapter output the spec describes: flatten the per-span unit
lists of every segment in order and assign ids 1, 2, 3, … in encounter
order (discarded units consume no id). -/
def adapterSpec (aligned : List (Seg × List AlignedSpan)) : List SubEntry :=
  numberUnitsFrom 1
    (aligned.flatMap fun p =>
      p.2.flatMap (specSpanUnits ((p.1.start_ms : ℚ) / 1000)))

lemma processChar_skip (s : ℚ) (acc : List SubEntry) (c : AlignedItem)
    (hc : pystrip c.text.data = []) : processChar s acc c = acc := by
  simp [processChar, hc]

lemma processChar_emit (s : ℚ) (acc : List SubEntry) (c : AlignedItem)
    (hc : pystrip c.text.data ≠ []) :
    processChar s acc c = acc ++ [subOfUnit (acc.length + 1)
      (s + c.start?.getD 0, s + c.end?.getD 0, c.text)] := by
  simp [processChar, subOfUnit, hc]

lemma specCharUnit_skip (s : ℚ) (c : AlignedItem)
    (hc : pystrip c.text.data = []) : specCharUnit s c = none := by
  simp [specCharUnit, hc]

lemma specCharUnit_emit (s : ℚ) (c : AlignedItem)
    (hc : pystrip c.text.data ≠ []) :
    specCharUnit s c
      = some (s + c.start?.getD 0, s + c.end?.getD 0, c.text) := by
  simp [specCharUnit, hc]

lemma processWord_skip (s : ℚ) (acc : List SubEntry) (w : AlignedItem)
    (hw : pystrip w.text.data = []) : processWord s acc w = acc := by
  simp [processWord, hw]

lemma processWord_emit (s : ℚ) (acc : List SubEntry) (w : AlignedItem)
    (hw : pystrip w.text.data ≠ []) :
    processWord s acc w = acc ++ [subOfUnit (acc.length + 1)
      (s + w.start?.getD 0, s + w.end?.getD 0,
        String.mk (pystrip w.text.toList))] := by
  simp [processWord, subOfUnit, hw]

lemma specWordUnit_skip (s : ℚ) (w : AlignedItem)
    (hw : pystrip w.text.data = []) : specWordUnit s w = none := by
  simp [specWordUnit, hw]

lemma specWordUnit_emit (s : ℚ) (w : AlignedItem)
    (hw : pystrip w.text.data ≠ []) :
    specWordUnit s w = some (s + w.start?.getD 0, s + w.end?.getD 0,
      String.mk (pystrip w.text.toList)) := by
  simp [specWordUnit, hw]

lemma numberUnitsFrom_append (n : ℕ) (a b : List (ℚ × ℚ × String)) :
    numberUnitsFrom n (a ++ b)
      = numberUnitsFrom n a ++ numberUnitsFrom (n + a.length) b := by
  induction a generalizing n with
  | nil => simp [numberUnitsFrom]
  | cons u us ih =>
    simp only [List.cons_append, numberUnitsFrom, List.append_eq, ih,
      List.length_cons]
    have h : n + 1 + us.length = n + (us.length + 1) := by omega
    rw [h]

lemma length_numberUnitsFrom (n : ℕ) (us : List (ℚ × ℚ × String)) :
    (numberUnitsFrom n us).length = us.length := by
  induction us generalizing n with
  | nil => rfl
  | cons u us ih => simp [numberUnitsFrom, ih]

/-- The char loop is the numbered filterMap of `specCharUnit`, appended
to the accumulator, ids continuing from the accumulator's length. -/
lemma foldl_processChar (s : ℚ) (items : List AlignedItem) (acc : List SubEntry) :
    items.foldl (processChar s) acc
      = acc ++ numberUnitsFrom (acc.length + 1)
          (items.filterMap (specCharUnit s)) := by
  induction items generalizing acc with
  | nil => simp [numberUnitsFrom]
  | cons c cs ih =>
    by_cases hc : pystrip c.text.data = []
    · rw [List.foldl_cons, processChar_skip s acc c hc, List.filterMap_cons,
        specCharUnit_skip s c hc]
      exact ih acc
    · rw [List.foldl_cons, processChar_emit s acc c hc, List.filterMap_cons,
        specCharUnit_emit s c hc, ih]
      simp only [List.length_append, List.length_singleton, numberUnitsFrom,
        List.append_assoc, List.singleton_append]

/-- Word-loop counterpart of `foldl_processChar`. -/
lemma foldl_processWord (s : ℚ) (items : List AlignedItem) (acc : List SubEntry) :
    items.foldl (processWord s) acc
      = acc ++ numberUnitsFrom (acc.length + 1)
          (items.filterMap (specWordUnit s)) := by
  induction items generalizing acc with
  | nil => simp [numberUnitsFrom]
  | cons w ws ih =>
    by_cases hw : pystrip w.text.data = []
    · rw [List.foldl_cons, processWord_skip s acc w hw, List.filterMap_cons,
        specWordUnit_skip s w hw]
      exact ih acc
    · rw [List.foldl_cons, processWord_emit s acc w hw, List.filterMap_cons,
        specWordUnit_emit s w hw, ih]
      simp only [List.length_append, List.length_singleton, numberUnitsFrom,
        List.append_assoc, List.singleton_append]

/-- One span appends its numbered unit list to the accumulator. -/
lemma processSpan_eq (s : ℚ) (sp : AlignedSpan) (acc : List SubEntry) :
    processSpan s acc sp
      = acc ++ numberUnitsFrom (acc.length + 1) (specSpanUnits s sp) := by
  unfold processSpan specSpanUnits
  match sp.chars? with
  | some (c :: cs) => exact foldl_processChar s (c :: cs) acc
  | some [] => exact foldl_processWord s _ acc
  | none => exact foldl_processWord s _ acc

/-- The span loop appends the concatenation of the spans' numbered unit
lists. -/
lemma foldl_processSpan (s : ℚ) (spans : List AlignedSpan) (acc : List SubEntry) :
    spans.foldl (processSpan s) acc
      = acc ++ numberUnitsFrom (acc.length + 1)
          (spans.flatMap (specSpanUnits s)) := by
  induction spans generalizing acc with
  | nil => simp [numberUnitsFrom]
  | cons sp sps ih =>
    rw [List.foldl_cons, processSpan_eq, ih, List.flatMap_cons,
      numberUnitsFrom_append, List.append_assoc]
    congr 2
    congr 1
    simp only [List.length_append, length_numberUnitsFrom]
    omega

/-- The whole subtitle-building loop equals the spec-side adapter. -/
lemma transcribe_eq_adapterSpec (aligned : List (Seg × List AlignedSpan)) :
    transcribe_with_whisperx aligned = adapterSpec aligned := by
  suffices h : ∀ (ps : List (Seg × List AlignedSpan)) (acc : List SubEntry),
      ps.foldl (fun acc p =>
          p.2.foldl (processSpan ((p.1.start_ms : ℚ) / 1000)) acc) acc
        = acc ++ numberUnitsFrom (acc.length + 1)
            (ps.flatMap fun p =>
              p.2.flatMap (specSpanUnits ((p.1.start_ms : ℚ) / 1000))) by
    simpa [transcribe_with_whisperx, adapterSpec] using h aligned []
  intro ps
  induction ps with
  | nil => intro acc; simp [numberUnitsFrom]
  | cons p ps ih =>
    intro acc
    rw [List.foldl_cons, foldl_processSpan, ih, List.flatMap_cons,
      numberUnitsFrom_append, List.append_assoc]
    congr 2
    congr 1
    simp only [List.length_append, length_numberUnitsFrom]
    omega

/-! ## Idempotence of `pystrip` -/

lemma pystrip_eq_rdropWhile (l : List Char) :
    pystrip l
      = List.rdropWhile Char.isWhitespace (l.dropWhile Char.isWhitespace) := rfl

lemma pystrip_idem (l : List Char) : pystrip (pystrip l) = pystrip l := by
  rw [pystrip_eq_rdropWhile, pystrip_eq_rdropWhile]
  set A := l.dropWhile Char.isWhitespace with hAdef
  have hA : A.dropWhile Char.isWhitespace = A := List.dropWhile_idempotent _ _
  have hBpre : List.rdropWhile Char.isWhitespace A <+: A :=
    List.rdropWhile_prefix _ _
  have hdropB : (List.rdropWhile Char.isWhitespace A).dropWhile Char.isWhitespace
      = List.rdropWhile Char.isWhitespace A := by
    rw [List.dropWhile_eq_self_iff]
    intro hl
    have h0 : 0 < A.length := lt_of_lt_of_le hl hBpre.length_le
    have hget : (List.rdropWhile Char.isWhitespace A).get ⟨0, hl⟩
        = A.get ⟨0, h0⟩ := by
      simpa [List.get_eq_getElem] using hBpre.getElem hl
    rw [hget]
    exact (List.dropWhile_eq_self_iff.1 hA) h0
  rw [hdropB, List.rdropWhile_idempotent]

/-! ## Membership shape of the adapter output -/

lemma mem_numberUnitsFrom {u : SubEntry} {n : ℕ}
    {us : List (ℚ × ℚ × String)} (hu : u ∈ numberUnitsFrom n us) :
    ∃ p ∈ us, ∃ k, u = subOfUnit k p := by
  induction us generalizing n with
  | nil => simp [numberUnitsFrom] at hu
  | cons v vs ih =>
    rcases List.mem_cons.1 hu with h | h
    · exact ⟨v, List.mem_cons_self _ _, n, h⟩
    · obtain ⟨p, hp, k, hk⟩ := ih h
      exact ⟨p, List.mem_cons_of_mem _ hp, k, hk⟩

lemma specCharUnit_prop {s : ℚ} {c : AlignedItem} {p : ℚ × ℚ × String}
    (h : specCharUnit s c = some p) :
    p.1 = s + c.start?.getD 0 ∧ p.2.1 = s + c.end?.getD 0 ∧
    p.2.2 = c.text ∧ pystrip p.2.2.data ≠ [] := by
  unfold specCharUnit at h
  split at h
  · exact absurd h (by simp)
  · rename_i hne
    rcases Option.some.inj h with rfl
    refine ⟨rfl, rfl, rfl, ?_⟩
    simpa using hne

lemma specWordUnit_prop {s : ℚ} {w : AlignedItem} {p : ℚ × ℚ × String}
    (h : specWordUnit s w = some p) :
    p.1 = s + w.start?.getD 0 ∧ p.2.1 = s + w.end?.getD 0 ∧
    p.2.2 = String.mk (pystrip w.text.data) ∧ pystrip p.2.2.data ≠ [] := by
  unfold specWordUnit at h
  dsimp only at h
  split at h
  · exact absurd h (by simp)
  · rename_i hne
    rcases Option.some.inj h with rfl
    refine ⟨rfl, rfl, rfl, ?_⟩
    show pystrip (pystrip w.text.data) ≠ []
    rw [pystrip_idem]
    simpa using hne

lemma specSpanUnits_mem {s : ℚ} {sp : AlignedSpan} {p : ℚ × ℚ × String}
    (hp : p ∈ specSpanUnits s sp) :
    (∃ c ∈ sp.chars?.getD [], specCharUnit s c = some p) ∨
    (∃ w ∈ sp.words?.getD [], specWordUnit s w = some p) := by
  unfold specSpanUnits at hp
  split at hp
  · rename_i c cs hchars
    left
    obtain ⟨c', hc', hc'eq⟩ := List.mem_filterMap.1 hp
    exact ⟨c', by rw [hchars]; simpa using hc', hc'eq⟩
  · right
    obtain ⟨w', hw', hw'eq⟩ := List.mem_filterMap.1 hp
    exact ⟨w', hw', hw'eq⟩

/-! ## Claims C6, C8, C10 -/

/-- Claim C6: the subtitle-building loop of `transcribe_with_whisperx`
equals the adapter contract: per recognized span it emits one unit per
character when the span's character list is present and non-empty and
one unit per word otherwise (the choice made span by span), rebases
every unit's global timestamps as segment start plus the unit's local
offset, discards units whose text trims to empty without consuming an
id, and numbers the surviving units 1, 2, 3, … in encounter order. -/
theorem transcribe_matches_adapter_contract
    (aligned : List (Seg × List AlignedSpan)) :
    transcribe_with_whisperx aligned = adapterSpec aligned :=
  transcribe_eq_adapterSpec aligned

/-- A segment and engine result exercising a character item that has a
`start` key but no `end` key. -/
def startOnlyAligned : List (Seg × List AlignedSpan) :=
  [(⟨0, 1000⟩, [⟨some [⟨some 5, none, "a"⟩], none⟩])]

/-- Claim C8 (counterexample): a character item carrying `start` = 5 but
no `end` key yields a unit with `start_sec` = 5 and `end_sec` = 0 (the
missing key defaults to local offset 0), so `end_sec >= start_sec` fails
for items whose timing keys are missing. -/
theorem timed_unit_end_before_start_counterexample :
    (transcribe_with_whisperx startOnlyAligned).map
        (fun u => (u.start_sec, u.end_sec)) = [(5, 0)] ∧
    ¬ ((0 : ℚ) ≥ 5) := by
  constructor
  · have h : transcribe_with_whisperx startOnlyAligned
        = processChar 0 [] ⟨some 5, none, "a"⟩ := by
      simp [transcribe_with_whisperx, startOnlyAligned, processSpan]
    rw [h, processChar_emit 0 [] ⟨some 5, none, "a"⟩ (by decide)]
    simp [subOfUnit]
  · norm_num

/-- Claim C8 (amended): every unit emitted by the loop — for every
engine result whatsoever — has text that is non-empty after trimming
whitespace; and whenever additionally every character and word item in
the engine result has its defaulted end offset at least its defaulted
start offset (in particular when both timing keys are present with
`end >= start`, or both are missing), the unit also satisfies
`end_sec >= start_sec`.  A start-only item breaks the original
unconditional ordering claim (see the counterexample). -/
theorem timed_unit_invariant_under_ordered_offsets
    (aligned : List (Seg × List AlignedSpan))
    (u : SubEntry) (hu : u ∈ transcribe_with_whisperx aligned) :
    pystrip u.text.toList ≠ [] ∧
    ((∀ pr ∈ aligned, ∀ sp ∈ pr.2,
        (∀ it ∈ sp.chars?.getD [], it.start?.getD 0 ≤ it.end?.getD 0) ∧
        (∀ it ∈ sp.words?.getD [], it.start?.getD 0 ≤ it.end?.getD 0)) →
      u.start_sec ≤ u.end_sec) := by
  rw [transcribe_eq_adapterSpec] at hu
  obtain ⟨p, hp, k, rfl⟩ := mem_numberUnitsFrom hu
  obtain ⟨pr, hpr, hp2⟩ := List.mem_flatMap.1 hp
  obtain ⟨sp, hsp, hpu⟩ := List.mem_flatMap.1 hp2
  rcases specSpanUnits_mem hpu with ⟨c, hc, hceq⟩ | ⟨w, hw, hweq⟩
  · obtain ⟨h1, h2, h3, h4⟩ := specCharUnit_prop hceq
    refine ⟨?_, ?_⟩
    · show pystrip p.2.2.toList ≠ []
      exact h4
    · intro h
      show p.1 ≤ p.2.1
      rw [h1, h2]
      have := (h pr hpr sp hsp).1 c hc
      linarith
  · obtain ⟨h1, h2, h3, h4⟩ := specWordUnit_prop hweq
    refine ⟨?_, ?_⟩
    · show pystrip p.2.2.toList ≠ []
      exact h4
    · intro h
      show p.1 ≤ p.2.1
      rw [h1, h2]
      have := (h pr hpr sp hsp).2 w hw
      linarith

/-- Witness for `timed_unit_invariant_under_ordered_offsets`: one
segment at 2000 ms whose single span has one character item with both
timing keys present and ordered; both the unconditional text conjunct
and the conditional ordering conjunct are discharged concretely. -/
theorem timed_unit_invariant_witness :
    (subOfUnit 1 (2, 2 + 1/4, "a")
        ∈ transcribe_with_whisperx [((⟨2000, 3000⟩ : Seg),
            [(⟨some [⟨some 0, some (1/4), "a"⟩], none⟩ : AlignedSpan)])]) ∧
    pystrip (subOfUnit 1 (2, 2 + 1/4, "a")).text.toList ≠ [] ∧
    (subOfUnit 1 (2, 2 + 1/4, "a")).start_sec
      ≤ (subOfUnit 1 (2, 2 + 1/4, "a")).end_sec := by
  have hhyp : ∀ pr ∈ [((⟨2000, 3000⟩ : Seg),
      [(⟨some [⟨some 0, some (1/4), "a"⟩], none⟩ : AlignedSpan)])],
      ∀ sp ∈ pr.2,
        (∀ it ∈ sp.chars?.getD [], it.start?.getD 0 ≤ it.end?.getD 0) ∧
        (∀ it ∈ sp.words?.getD [], it.start?.getD 0 ≤ it.end?.getD 0) := by
    intro pr hpr sp hsp
    simp only [List.mem_singleton] at hpr
    subst hpr
    simp only [List.mem_singleton] at hsp
    subst hsp
    constructor
    · intro it hit
      simp only [Option.getD_some, List.mem_singleton] at hit
      subst hit
      norm_num
    · intro it hit
      simp at hit
  have hmem : subOfUnit 1 (2, 2 + 1/4, "a")
      ∈ transcribe_with_whisperx [((⟨2000, 3000⟩ : Seg),
          [(⟨some [⟨some 0, some (1/4), "a"⟩], none⟩ : AlignedSpan)])] := by
    have h : transcribe_with_whisperx [((⟨2000, 3000⟩ : Seg),
        [(⟨some [⟨some 0, some (1/4), "a"⟩], none⟩ : AlignedSpan)])]
        = processChar ((2000 : ℚ) / 1000) [] ⟨some 0, some (1/4), "a"⟩ := by
      simp [transcribe_with_whisperx, processSpan]
    rw [h, processChar_emit _ [] ⟨some 0, some (1/4), "a"⟩ (by decide)]
    have h2 : ((2000 : ℤ) : ℚ) / 1000 = 2 := by norm_num
    simp only [h2]
    norm_num [subOfUnit]
  have hmain := timed_unit_invariant_under_ordered_offsets _ _ hmem
  exact ⟨hmem, hmain.1, hmain.2 hhyp⟩

/-- Claim C10: a character item lacking its `start` key (here with `end`
present) and a word item lacking its `end` key (here with `start`
present) are still emitted — provided their text does not trim to empty —
and each missing global timestamp is exactly the segment start time
`s` (local offset defaulting to 0), the present key contributing
`s + offset`. -/
theorem missing_timing_defaults_to_segment_start
    (s qe qs : ℚ) (acc : List SubEntry) (a b : AlignedItem)
    (ha1 : a.start? = none) (ha2 : a.end? = some qe)
    (hat : pystrip a.text.data ≠ [])
    (hb1 : b.start? = some qs) (hb2 : b.end? = none)
    (hbt : pystrip b.text.data ≠ []) :
    processChar s acc a
      = acc ++ [subOfUnit (acc.length + 1) (s, s + qe, a.text)] ∧
    processWord s acc b
      = acc ++ [subOfUnit (acc.length + 1)
          (s + qs, s, String.mk (pystrip b.text.data))] := by
  constructor
  · rw [processChar_emit s acc a hat]
    simp [ha1, ha2]
  · rw [processWord_emit s acc b hbt]
    simp [hb1, hb2]

/-- Witness for `missing_timing_defaults_to_segment_start` with
`s = 2`, a character item `{end: 3, char: "a"}` with no `start` key and
a word item `{start: 4, word: "hi"}` with no `end` key. -/
theorem missing_timing_defaults_witness :
    ((⟨none, some 3, "a"⟩ : AlignedItem).start? = none ∧
      (⟨none, some 3, "a"⟩ : AlignedItem).end? = some 3 ∧
      pystrip (⟨none, some 3, "a"⟩ : AlignedItem).text.data ≠ [] ∧
      (⟨some 4, none, "hi"⟩ : AlignedItem).start? = some 4 ∧
      (⟨some 4, none, "hi"⟩ : AlignedItem).end? = none ∧
      pystrip (⟨some 4, none, "hi"⟩ : AlignedItem).text.data ≠ []) ∧
    (processChar 2 [] ⟨none, some 3, "a"⟩ = [subOfUnit 1 (2, 2 + 3, "a")] ∧
      processWord 2 [] ⟨some 4, none, "hi"⟩
        = [subOfUnit 1 (2 + 4, 2, String.mk (pystrip "hi".data))]) := by
  refine ⟨⟨rfl, rfl, by decide, rfl, rfl, by decide⟩, ?_⟩
  have h := missing_timing_defaults_to_segment_start 2 3 4 []
    ⟨none, some 3, "a"⟩ ⟨some 4, none, "hi"⟩ rfl rfl (by decide) rfl rfl
    (by decide)
  simpa using h
